import Mathlib

/-!
Verification of the FRET binary frame stream reader of
`jaeger_lab_to_nwb/fretconverter/fretdatainterface.py`.

The development shallowly embeds three pieces of that module:

* the per-file binary decode of `data_gen` (lines 116-143): a raw `.rsd`
  file is read as bytes, unpacked as signed 16-bit words, reshaped
  column-major into 12800-sample frame columns, each column reshaped
  column-major into a 128x100 block, negated in int16 arithmetic, and
  split into a 20-row excess region and a 100x100 frame region;
* the header parser `read_trial_meta` (lines 68-93): a line-oriented scan
  recognizing field lines by substring and accumulating file names after
  the `Data-File-List` sentinel;
* the per-trial orchestration of `run_conversion` (lines 150-265): the
  session-start consistency check, the donor/acceptor assertions, and the
  order of checks relative to writes into the output container.

Byte buffers are `List Nat` (one entry per byte), text lines are
`List Char` (one entry per line, without the trailing newline that
`f.readline` keeps: the source only uses lines via substring tests and
`strip`, which the newline cannot affect), Python floats are modelled as
rationals, and `datetime` values parsed by `strptime` are modelled as
integer seconds.
-/

/-- Two's-complement reading of a 16-bit word, as struct.unpack format "h"
produces for each byte pair. -/
def toSigned16 (v : Nat) : Int :=
  if v % 65536 < 32768 then ((v % 65536 : Nat) : Int)
  else ((v % 65536 : Nat) : Int) - 65536

/-- Wrap an integer into the signed 16-bit range, as numpy int16
arithmetic does on overflow. -/
def int16 (v : Int) : Int := (v + 32768) % 65536 - 32768

/-- struct.unpack of len(byte) // 2 words of format "h" (line 131): consecutive
little-endian byte pairs decoded as signed 16-bit words. -/
def unpackWords : List Nat → List Int
  | [] => []
  | [_] => []
  | b0 :: b1 :: rest => toSigned16 (b0 + 256 * b1) :: unpackWords rest

/-- The flat 16-bit sample stream of a raw byte buffer: `rawSample buf i`
is the i-th signed 16-bit sample of the file. -/
def rawSample (buf : List Nat) (i : Nat) : Int := (unpackWords buf).getD i 0

/-- Element (i, ifr) of words.reshape(12800, n_frames, order="F")
(line 135): column-major, so the first 12800 samples in file order fill
column 0. -/
def wordsReshaped (words : List Int) (i ifr : Nat) : Int :=
  words.getD (i + ifr * 12800) 0

/-- Element (r, c) of iframe (line 139), i.e. of
-words_reshaped[:, ifr].reshape(128, 100, order="F").astype("int16").
The cast to int16 happens before the unary minus, so the negation is
int16 arithmetic and wraps at -32768. -/
def iframePixel (words : List Int) (ifr r c : Nat) : Int :=
  int16 (- int16 (wordsReshaped words (r + c * 128) ifr))

/-- iframe[20:120, :] (lines 140 and 143): the 100x100 frame region that
data_gen yields for frame ifr. -/
def frameRows (words : List Int) (ifr : Nat) : List (List Int) :=
  List.ofFn (fun r : Fin 100 => List.ofFn (fun c : Fin 100 => iframePixel words ifr (20 + r) c))

/-- iframe[0:20, :] (line 141): the 20x100 excess region carrying the
analog samples, discarded from the frame stream. -/
def excessRows (words : List Int) (ifr : Nat) : List (List Int) :=
  List.ofFn (fun r : Fin 20 => List.ofFn (fun c : Fin 100 => iframePixel words ifr r c))

/-- Failure modes of the per-file decode. `structError` models the
struct.error raised on an odd byte count; `reshapeError` models the numpy
ValueError raised when the sample count does not fill 12800 x n_frames
exactly; `capacityError` models the dedicated capacity failure that the
specification claims for oversized files — the decode defined below never
produces it. -/
inductive DecodeErr
  | structError
  | reshapeError
  | capacityError
deriving DecidableEq

/-- Per-file decode of data_gen on the in-memory byte buffer
(lines 131-143): unpack as int16 words, recompute
n_frames = int(len(words) / 12800) from the buffer alone, reshape
column-major (failing like np.reshape when the count does not divide
evenly), and emit the 100x100 frame regions in yield order. -/
def decodeBuffer (buf : List Nat) : Except DecodeErr (List (List (List Int))) :=
  if buf.length % 2 ≠ 0 then Except.error DecodeErr.structError
  else
    let words := unpackWords buf
    let n_frames := words.length / 12800
    if 12800 * n_frames ≠ words.length then Except.error DecodeErr.reshapeError
    else Except.ok (List.ofFn (fun k : Fin n_frames => frameRows words k))

/-- f.read(1000000000) (line 129): a single read returning at most 10^9
bytes of the file; a longer file is silently truncated by the read. -/
def file_read (file : List Nat) : List Nat := file.take 1000000000

/-- The whole per-file pipeline of data_gen: bounded single read, then
decode of whatever the read returned. -/
def decodeFile (file : List Nat) : Except DecodeErr (List (List (List Int))) :=
  decodeBuffer (file_read file)

/-- data_gen's per-file decode as a function of the header-declared frame
count: data_gen receives n_frames from the header (line 120) but
reassigns it from the file contents, n_frames = int(len(words) / 12800)
(line 134), before any use, so the parameter is dead. -/
def data_gen_file (n_frames_header : Int) (buf : List Nat) :
    Except DecodeErr (List (List (List Int))) :=
  decodeBuffer buf

/-- Row r, column c of the 128x100 block obtained by stacking the excess
region (rows 0-19) back on top of the frame region (rows 20-119). -/
def stackedBlock (words : List Int) (ifr r c : Nat) : Int :=
  if r < 20 then ((excessRows words ifr).getD r []).getD c 0
  else ((frameRows words ifr).getD (r - 20) []).getD c 0

/-! ## Header parser (`read_trial_meta`, lines 68-93) -/

/-- Does the character list `l` start with `pat`? -/
def startsWith : List Char → List Char → Bool
  | [], _ => true
  | _ :: _, [] => false
  | p :: ps, c :: cs => p == c && startsWith ps cs

/-- Python's `pat in line` substring test for a nonempty pattern. -/
def containsSub (pat : List Char) : List Char → Bool
  | [] => startsWith pat []
  | c :: cs => startsWith pat (c :: cs) || containsSub pat cs

/-- One step bound for `removeAll`: fuel-indexed left-to-right removal of
every occurrence of `pat`, as Python str.replace of pat by the empty string. -/
def removeAllAux (pat : List Char) : Nat → List Char → List Char
  | 0, l => l
  | _ + 1, [] => []
  | fuel + 1, c :: cs =>
    if !pat.isEmpty && startsWith pat (c :: cs) then
      removeAllAux pat fuel ((c :: cs).drop pat.length)
    else c :: removeAllAux pat fuel cs

/-- Python str.replace of pat by the empty string: delete every (left-to-right,
non-overlapping) occurrence of `pat`. -/
def removeAll (pat l : List Char) : List Char := removeAllAux pat l.length l

/-- Whitespace for str.strip (space, tab, newline, carriage return). -/
def isSpaceChar (c : Char) : Bool := c == ' ' || c == '\t' || c == '\n' || c == '\r'

/-- Python str.strip(): drop leading and trailing whitespace. -/
def strip (l : List Char) : List Char :=
  ((l.dropWhile isSpaceChar).reverse.dropWhile isSpaceChar).reverse

/-- Is `c` a decimal digit? -/
def digitCode (c : Char) : Bool := 48 ≤ c.toNat && c.toNat ≤ 57

/-- Is every character of `l` a decimal digit? -/
def allDigits (l : List Char) : Bool := l.all digitCode

/-- Value of a string of decimal digits. -/
def digitsToNat (l : List Char) : Nat := l.foldl (fun a c => 10 * a + (c.toNat - 48)) 0

/-- Split a character list at every occurrence of `sep` (the separator is
dropped). -/
def splitOnChar (sep : Char) : List Char → List (List Char)
  | [] => [[]]
  | c :: cs =>
    if c == sep then [] :: splitOnChar sep cs
    else
      match splitOnChar sep cs with
      | [] => [[c]]
      | w :: ws => (c :: w) :: ws

/-- Model of Python float() on the already-stripped field value: an
optional sign followed by decimal digits with at most one decimal point
(at least one digit overall). Exponent, inf/nan and underscore forms,
which no header of this instrument uses, are not modelled. Returns none
exactly where float() raises ValueError on the modelled forms. -/
def parseFloat (l : List Char) : Option ℚ :=
  let core : List Char → Option ℚ := fun r =>
    match splitOnChar '.' r with
    | [ip] => if !ip.isEmpty && allDigits ip then some ((digitsToNat ip : ℚ)) else none
    | [ip, fp] =>
      if (!ip.isEmpty || !fp.isEmpty) && allDigits ip && allDigits fp then
        some ((digitsToNat ip : ℚ) + (digitsToNat fp : ℚ) / (10 : ℚ) ^ fp.length)
      else none
    | _ => none
  match l with
  | '-' :: r => (core r).map (fun q => -q)
  | '+' :: r => core r
  | r => core r

/-- Model of Python int() on the already-stripped field value: an optional
sign followed by decimal digits. Returns none exactly where int() raises
ValueError on the modelled forms. -/
def parseInt (l : List Char) : Option Int :=
  match l with
  | '-' :: r => if !r.isEmpty && allDigits r then some (-(digitsToNat r : Int)) else none
  | '+' :: r => if !r.isEmpty && allDigits r then some ((digitsToNat r : Int)) else none
  | r => if !r.isEmpty && allDigits r then some ((digitsToNat r : Int)) else none

/-- The substring marker of the acquisition date field (line 75). -/
def acqPat : List Char := "acquisition_date".toList

/-- The substring marker of the sample duration field (line 77). -/
def timePat : List Char := "sample_time".toList

/-- The substring marker of the frames-per-page field (line 81). -/
def framesPat : List Char := "page_frames".toList

/-- The sentinel that switches the parser into file-list mode (line 86). -/
def sentinelPat : List Char := "Data-File-List".toList

/-- The "=" separator stripped from every field line. -/
def eqPat : List Char := "=".toList

/-- The "msec" unit suffix stripped from the sample duration field. -/
def msecPat : List Char := "msec".toList

/-- line.replace("sample_time", "").replace("=", "").replace("msec", "").strip()
(line 78). -/
def timeAux (line : List Char) : List Char :=
  strip (removeAll msecPat (removeAll eqPat (removeAll timePat line)))

/-- line.replace("page_frames", "").replace("=", "").strip() (line 82). -/
def framesAux (line : List Char) : List Char :=
  strip (removeAll eqPat (removeAll framesPat line))

/-- line.replace("acquisition_date", "").replace("=", "").strip() (line 76). -/
def dateAux (line : List Char) : List Char :=
  strip (removeAll eqPat (removeAll acqPat line))

/-- The local variables of read_trial_meta while scanning lines: `none`
models a Python local that is still unbound. -/
structure HeaderState where
  acquisition_date : Option (List Char)
  sample_time : Option ℚ
  sample_rate : Option ℚ
  n_frames : Option Int
  files_raw : List (List Char)
  addftolist : Bool
deriving DecidableEq

/-- State at the top of read_trial_meta (lines 70-71): no field bound,
empty file list, addftolist = False. -/
def initState : HeaderState :=
  { acquisition_date := none, sample_time := none, sample_rate := none,
    n_frames := none, files_raw := [], addftolist := false }

/-- The Python exceptions read_trial_meta can raise: ValueError from
float() or int() on a malformed numeric field, ZeroDivisionError from
1 / sample_time, IndexError from files_raw[0] on an empty file list, and
UnboundLocalError (here nameError) from returning a never-assigned local. -/
inductive HeaderErr
  | valueErrorFloat
  | valueErrorInt
  | zeroDivisionError
  | indexError
  | nameError
deriving DecidableEq

/-- The specification's FormatError groups the failures caused by missing
header structure: the empty file list (IndexError) and a missing required
field (UnboundLocalError). -/
def isFormatError : HeaderErr → Bool
  | HeaderErr.indexError => true
  | HeaderErr.nameError => true
  | _ => false

/-- The specification's ParseError groups the failures of parsing a
numeric field value (ValueError from float() or int()). -/
def isParseError : HeaderErr → Bool
  | HeaderErr.valueErrorFloat => true
  | HeaderErr.valueErrorInt => true
  | _ => false

/-- Lines 75-76: if "acquisition_date" in line, rebind acquisition_date. -/
def lineDate (st : HeaderState) (line : List Char) : HeaderState :=
  if containsSub acqPat line then { st with acquisition_date := some (dateAux line) }
  else st

/-- Lines 77-80: if "sample_time" in line, parse the duration (ValueError
if malformed), convert to seconds and take the reciprocal sample rate
(ZeroDivisionError if the duration is zero). -/
def lineTime (st : HeaderState) (line : List Char) : Except HeaderErr HeaderState :=
  if containsSub timePat line then
    match parseFloat (timeAux line) with
    | none => Except.error HeaderErr.valueErrorFloat
    | some v =>
      if v / 1000 = 0 then Except.error HeaderErr.zeroDivisionError
      else Except.ok { st with sample_time := some (v / 1000), sample_rate := some (1 / (v / 1000)) }
  else Except.ok st

/-- Lines 81-83: if "page_frames" in line, parse the frame count
(ValueError if malformed). -/
def lineFrames (st : HeaderState) (line : List Char) : Except HeaderErr HeaderState :=
  if containsSub framesPat line then
    match parseInt (framesAux line) with
    | none => Except.error HeaderErr.valueErrorInt
    | some n => Except.ok { st with n_frames := some n }
  else Except.ok st

/-- Lines 84-85: if addftolist, append the stripped line to files_raw. -/
def lineFiles (st : HeaderState) (line : List Char) : HeaderState :=
  if st.addftolist then { st with files_raw := st.files_raw ++ [strip line] }
  else st

/-- Lines 86-87: if "Data-File-List" in line, set addftolist (checked
after the append, so the sentinel line itself is never appended). -/
def lineSentinel (st : HeaderState) (line : List Char) : HeaderState :=
  if containsSub sentinelPat line then { st with addftolist := true }
  else st

/-- One iteration of the read_trial_meta scan loop (lines 74-88), with the
five substring tests applied in source order. -/
def processLine (st : HeaderState) (line : List Char) : Except HeaderErr HeaderState :=
  match lineTime (lineDate st line) line with
  | Except.error e => Except.error e
  | Except.ok st2 =>
    match lineFrames st2 line with
    | Except.error e => Except.error e
    | Except.ok st3 => Except.ok (lineSentinel (lineFiles st3 line) line)

/-- The scan loop from an arbitrary intermediate state. -/
def processLinesFrom : HeaderState → List (List Char) → Except HeaderErr HeaderState
  | st, [] => Except.ok st
  | st, l :: ls =>
    match processLine st l with
    | Except.error e => Except.error e
    | Except.ok st2 => processLinesFrom st2 ls

/-- The whole scan loop of read_trial_meta over the header's lines. -/
def processLines (lines : List (List Char)) : Except HeaderErr HeaderState :=
  processLinesFrom initState lines

/-- read_trial_meta (lines 68-93): scan all lines, then split
files_raw[0] (the .rsm bitmap, IndexError if the list is empty) from the
remaining raw-data files and return the bound locals (UnboundLocalError,
in tuple order, if one was never assigned). -/
def read_trial_meta (lines : List (List Char)) :
    Except HeaderErr (List Char × List (List Char) × List Char × ℚ × Int) :=
  match processLines lines with
  | Except.error e => Except.error e
  | Except.ok st =>
    match st.files_raw with
    | [] => Except.error HeaderErr.indexError
    | file_rsm :: files_rest =>
      match st.acquisition_date, st.sample_rate, st.n_frames with
      | some d, some r, some n => Except.ok (file_rsm, files_rest, d, r, n)
      | none, _, _ => Except.error HeaderErr.nameError
      | _, none, _ => Except.error HeaderErr.nameError
      | _, _, none => Except.error HeaderErr.nameError

/-! ## Orchestrator (`run_conversion`, lines 150-265) -/

/-- The per-channel trial metadata the orchestrator compares (lines
195-196). The datetime parsed by strptime from the acquisition_date
string is modelled as integer seconds; the donor/acceptor date equality
test of line 202 becomes equality of these integers. -/
structure TrialHeaderMeta where
  acquisition_time : Int
  sample_rate : ℚ
  n_frames : Int
deriving DecidableEq

/-- One acquisition record written by add_acquisition (line 257): the
FRET container parameters that matter to the claims (start offset and the
two channel rates); the frame payload streams through DataChunkIterator
and is not recorded here. -/
structure TrialAcq where
  starting_time : ℚ
  rate_donor : ℚ
  rate_acceptor : ℚ
deriving DecidableEq

/-- The nwbfile state the orchestrator can touch: its fixed session start
time (as integer seconds), the devices (line 164), the acquisitions
(line 257) and the optional trials table (lines 183 and 262). -/
structure NWBState where
  session_start_time : Int
  devices : List (List Char)
  acquisitions : List TrialAcq
  trials : Option (List (ℚ × ℚ))
deriving DecidableEq

/-- The AssertionError raised by each donor/acceptor consistency check of
lines 202-209, one constructor per assert in source order. -/
inductive OrchErr
  | dateMismatch
  | rateMismatch
  | framesMismatch
  | negativeStart
deriving DecidableEq

/-- Python timedelta.seconds of a difference of `td` seconds: the seconds
component of the normalized timedelta, always in [0, 86400) — not the
total signed difference (line 199 uses .seconds, not .total_seconds()). -/
def timedelta_seconds (td : Int) : Int := td % 86400

/-- One iteration of the trial loop (lines 191-265): compute
relative_start_time from the donor acquisition date, run the four asserts
in source order, and only then append the acquisition and (when the file
had no trials table at entry) the trial interval row. -/
def processTrial (addTrials : Bool) (nwb : NWBState) (mA mB : TrialHeaderMeta) :
    Except OrchErr NWBState :=
  let relative_start_time : ℚ :=
    ((timedelta_seconds (mA.acquisition_time - nwb.session_start_time) : Int) : ℚ)
  if mA.acquisition_time ≠ mB.acquisition_time then Except.error OrchErr.dateMismatch
  else if mA.sample_rate ≠ mB.sample_rate then Except.error OrchErr.rateMismatch
  else if mA.n_frames ≠ mB.n_frames then Except.error OrchErr.framesMismatch
  else if relative_start_time < 0 then Except.error OrchErr.negativeStart
  else
    let nwb2 := { nwb with
      acquisitions := nwb.acquisitions ++
        [{ starting_time := relative_start_time, rate_donor := mA.sample_rate,
           rate_acceptor := mB.sample_rate }] }
    Except.ok (if addTrials then
      { nwb2 with trials := some ((nwb2.trials.getD []) ++
          [(relative_start_time, relative_start_time + (mA.n_frames : ℚ) / mA.sample_rate)]) }
    else nwb2)

/-- run_conversion after the header files are parsed (lines 150-265):
if the session start derived from the first session-level header differs
from the nwbfile's session start, print a warning and return with the
nwbfile untouched (the Bool result records that the warning was printed);
otherwise add the device, fix add_trials from the current trials table,
and run every trial in order. -/
def run_conversion (nwb : NWBState) (headerSessionStart : Int) (deviceName : List Char)
    (trialsMeta : List (TrialHeaderMeta × TrialHeaderMeta)) :
    Except OrchErr (NWBState × Bool) :=
  if headerSessionStart ≠ nwb.session_start_time then Except.ok (nwb, true)
  else
    let nwb1 := { nwb with devices := nwb.devices ++ [deviceName] }
    let addTrials := nwb1.trials.isNone
    match trialsMeta.foldlM (fun s mAB => processTrial addTrials s mAB.1 mAB.2) nwb1 with
    | Except.error e => Except.error e
    | Except.ok nwbF => Except.ok (nwbF, false)

/-! ## Decoder lemmas -/

/-- struct.unpack yields one word per byte pair: len(byte) // 2 words. -/
theorem unpackWords_length : ∀ buf : List Nat, (unpackWords buf).length = buf.length / 2
  | [] => by simp [unpackWords]
  | [_] => by simp [unpackWords]
  | b0 :: b1 :: rest => by
    simp only [unpackWords, List.length_cons]
    rw [unpackWords_length rest]
    omega

/-- Every two's-complement 16-bit value lies in [-32768, 32768). -/
theorem toSigned16_range (v : Nat) : -32768 ≤ toSigned16 v ∧ toSigned16 v < 32768 := by
  unfold toSigned16
  split <;> omega

/-- Every unpacked word lies in the signed 16-bit range. -/
theorem unpackWords_range : ∀ buf : List Nat, ∀ x ∈ unpackWords buf, -32768 ≤ x ∧ x < 32768
  | [], x, hx => by simp [unpackWords] at hx
  | [_], x, hx => by simp [unpackWords] at hx
  | b0 :: b1 :: rest, x, hx => by
    simp only [unpackWords, List.mem_cons] at hx
    rcases hx with h | h
    · exact h ▸ toSigned16_range _
    · exact unpackWords_range rest x h

/-- Every raw sample (with the out-of-range default 0 included) lies in
the signed 16-bit range. -/
theorem rawSample_range (buf : List Nat) (i : Nat) :
    -32768 ≤ rawSample buf i ∧ rawSample buf i < 32768 := by
  unfold rawSample
  rcases Nat.lt_or_ge i (unpackWords buf).length with h | h
  · rw [List.getD_eq_getElem?_getD, List.getElem?_eq_getElem h]
    exact unpackWords_range buf _ (List.getElem_mem h)
  · rw [List.getD_eq_getElem?_getD, List.getElem?_eq_none h]
    simp

/-- int16 is the identity on values already in the signed 16-bit range. -/
theorem int16_eq_self {w : Int} (h1 : -32768 ≤ w) (h2 : w < 32768) : int16 w = w := by
  unfold int16
  omega

/-- Wrapping before an int16 negation does not change the wrapped result. -/
theorem int16_neg_int16 (w : Int) : int16 (- int16 w) = int16 (- w) := by
  unfold int16
  omega

/-- Undoing the decoder's int16 negation by a second int16 negation
recovers any in-range value. -/
theorem int16_unneg {w : Int} (h1 : -32768 ≤ w) (h2 : w < 32768) :
    int16 (- int16 (- int16 w)) = w := by
  unfold int16
  omega

/-- getD on List.ofFn at an in-bounds index is the generating function. -/
theorem getD_ofFn {α : Type} {n : Nat} (f : Fin n → α) (k : Nat) (d : α) (hk : k < n) :
    (List.ofFn f).getD k d = f ⟨k, hk⟩ := by
  rw [List.getD_eq_getElem?_getD, List.getElem?_eq_getElem (by simpa using hk)]
  simp [List.getElem_ofFn]

/-- On a buffer with an even byte count whose sample count is a multiple
of 12800, the decode succeeds and produces the ofFn frame list. -/
theorem decodeBuffer_ok (buf : List Nat) (h2 : buf.length % 2 = 0)
    (h12800 : (buf.length / 2) % 12800 = 0) :
    decodeBuffer buf = Except.ok (List.ofFn
      (fun k : Fin ((unpackWords buf).length / 12800) => frameRows (unpackWords buf) k)) := by
  have hw : (unpackWords buf).length = buf.length / 2 := unpackWords_length buf
  simp only [decodeBuffer]
  rw [if_neg (by omega), if_neg (by omega)]

/-- C1: for every raw byte buffer whose length is a multiple of 25600,
the per-file decode succeeds with exactly (length/2)/12800 frames, each
100x100, and the frame k pixel at (r, c) is the int16 negation of the raw
sample at flat index k*12800 + c*128 + (r+20), i.e. the column-major
position (r+20, c) of the k-th 128x100 block. -/
theorem C1_decode (buf : List Nat) (h : buf.length % 25600 = 0) :
    ∃ frames, decodeBuffer buf = Except.ok frames ∧
      frames.length = buf.length / 2 / 12800 ∧
      (∀ f ∈ frames, f.length = 100 ∧ ∀ row ∈ f, row.length = 100) ∧
      (∀ k r c, k < buf.length / 2 / 12800 → r < 100 → c < 100 →
        ((frames.getD k []).getD r []).getD c 0 =
          int16 (- rawSample buf (k * 12800 + c * 128 + (r + 20)))) := by
  have h2 : buf.length % 2 = 0 := by omega
  have h12800 : (buf.length / 2) % 12800 = 0 := by omega
  have hw : (unpackWords buf).length = buf.length / 2 := unpackWords_length buf
  refine ⟨_, decodeBuffer_ok buf h2 h12800, ?_, ?_, ?_⟩
  · rw [List.length_ofFn, hw]
  · intro f hf
    rw [List.mem_ofFn] at hf
    obtain ⟨k, rfl⟩ := hf
    refine ⟨by simp only [frameRows, List.length_ofFn], ?_⟩
    intro row hrow
    simp only [frameRows, List.mem_ofFn] at hrow
    obtain ⟨r, rfl⟩ := hrow
    simp only [List.length_ofFn]
  · intro k r c hk hr hc
    have hk' : k < (unpackWords buf).length / 12800 := by omega
    rw [getD_ofFn _ k _ hk']
    show ((frameRows (unpackWords buf) k).getD r []).getD c 0 = _
    simp only [frameRows]
    rw [getD_ofFn _ r _ hr, getD_ofFn _ c _ hc]
    show iframePixel (unpackWords buf) k (20 + r) c = _
    unfold iframePixel wordsReshaped rawSample
    rw [int16_neg_int16]
    have : 20 + r + c * 128 + k * 12800 = k * 12800 + c * 128 + (r + 20) := by ring
    rw [this]

/-- Witness for C1 at the 25600-byte zero buffer. -/
theorem C1_decode_witness :
    (List.replicate 25600 (0 : Nat)).length % 25600 = 0 ∧
    (∃ frames, decodeBuffer (List.replicate 25600 0) = Except.ok frames ∧
      frames.length = (List.replicate 25600 (0 : Nat)).length / 2 / 12800 ∧
      (∀ f ∈ frames, f.length = 100 ∧ ∀ row ∈ f, row.length = 100) ∧
      (∀ k r c, k < (List.replicate 25600 (0 : Nat)).length / 2 / 12800 → r < 100 → c < 100 →
        ((frames.getD k []).getD r []).getD c 0 =
          int16 (- rawSample (List.replicate 25600 0) (k * 12800 + c * 128 + (r + 20))))) := by
  have h : (List.replicate 25600 (0 : Nat)).length % 25600 = 0 := by
    simp only [List.length_replicate]
  exact ⟨h, C1_decode _ h⟩

/-- C3: the decoded frame sequence of a raw file does not depend on the
header-declared page_frames value: any two header values give identical
output, because the per-file count is recomputed from the file contents
alone (line 134 shadows the header value of line 120). -/
theorem C3_header_count_independent :
    (∀ (n1 n2 : Int) (buf : List Nat), data_gen_file n1 buf = data_gen_file n2 buf) ∧
    (∀ (n : Int) (buf : List Nat), data_gen_file n buf = decodeBuffer buf) :=
  ⟨fun _ _ _ => rfl, fun _ _ => rfl⟩

/-- C4 counterexample: the 20 excess rows plus the 100 frame rows cover
only rows 0-119 of a 128x100 block, so the stack cannot reconstruct the
whole block. On a buffer whose sample at block position (120, 0) is 5,
the stacked block (whose row 120 falls outside both regions) un-negates
to 0 there, not to the raw sample 5. -/
theorem C4_counterexample :
    int16 (- stackedBlock (unpackWords (List.replicate 240 0 ++ [5, 0])) 0 120 0) = 0 ∧
    rawSample (List.replicate 240 0 ++ [5, 0]) (0 * 12800 + 0 * 128 + 120) = 5 ∧
    int16 (- stackedBlock (unpackWords (List.replicate 240 0 ++ [5, 0])) 0 120 0) ≠
      rawSample (List.replicate 240 0 ++ [5, 0]) (0 * 12800 + 0 * 128 + 120) := by
  refine ⟨by decide, by decide, by decide⟩

/-- C4 (amended): for every row the two regions cover — rows 0-119 of a
block, i.e. all of the excess region and all of the frame region —
stacking the excess region on top of the frame region and un-negating
every sample as signed 16-bit reconstructs exactly the original raw
sample; the bottom 8 rows (120-127) of each 128x100 block belong to
neither region and are lost. -/
theorem C4_lossless_split (buf : List Nat) (k r c : Nat) (hr : r < 120) (hc : c < 100) :
    int16 (- stackedBlock (unpackWords buf) k r c) =
      rawSample buf (k * 12800 + c * 128 + r) := by
  have hidx : r + c * 128 + k * 12800 = k * 12800 + c * 128 + r := by ring
  have hrange := rawSample_range buf (k * 12800 + c * 128 + r)
  unfold stackedBlock
  split
  · next h20 =>
    rw [excessRows, getD_ofFn _ r _ h20, getD_ofFn _ c _ hc]
    show int16 (- iframePixel (unpackWords buf) k r c) = _
    unfold iframePixel wordsReshaped
    rw [hidx]
    exact int16_unneg hrange.1 hrange.2
  · next h20 =>
    have hr' : r - 20 < 100 := by omega
    rw [frameRows, getD_ofFn _ (r - 20) _ hr', getD_ofFn _ c _ hc]
    show int16 (- iframePixel (unpackWords buf) k (20 + (r - 20)) c) = _
    have h20' : 20 + (r - 20) = r := by omega
    rw [h20']
    unfold iframePixel wordsReshaped
    rw [hidx]
    exact int16_unneg hrange.1 hrange.2

/-- Witness for C4 at the 25600-byte zero buffer, k = 0, r = 5, c = 7. -/
theorem C4_lossless_split_witness :
    int16 (- stackedBlock (unpackWords (List.replicate 25600 0)) 0 5 7) =
      rawSample (List.replicate 25600 0) (0 * 12800 + 7 * 128 + 5) :=
  C4_lossless_split (List.replicate 25600 0) 0 5 7 (by decide) (by decide)

/-- C10: the decoder's cast-then-negate wraps modulo 2^16: a raw sample
of -32768 decodes to -32768 (not +32768), so the plain-negation equation
fails exactly there, while every raw sample in [-32767, 32767] decodes to
its exact negation. -/
theorem C10_negation_wraps :
    (∀ (words : List Int) (ifr r c : Nat),
      wordsReshaped words (r + c * 128) ifr = -32768 →
      iframePixel words ifr r c = -32768 ∧
      iframePixel words ifr r c ≠ - wordsReshaped words (r + c * 128) ifr) ∧
    (∀ (words : List Int) (ifr r c : Nat),
      -32767 ≤ wordsReshaped words (r + c * 128) ifr →
      wordsReshaped words (r + c * 128) ifr ≤ 32767 →
      iframePixel words ifr r c = - wordsReshaped words (r + c * 128) ifr) := by
  constructor
  · intro words ifr r c hw
    unfold iframePixel
    rw [hw]
    constructor
    · unfold int16
      decide
    · unfold int16
      decide
  · intro words ifr r c h1 h2
    unfold iframePixel int16
    omega

/-- Witness for C10: a one-word buffer [-32768] at (ifr, r, c) = (0,0,0)
for the wrap case and a one-word buffer [5] for the plain-negation case. -/
theorem C10_negation_wraps_witness :
    wordsReshaped [(-32768 : Int)] (0 + 0 * 128) 0 = -32768 ∧
    iframePixel [(-32768 : Int)] 0 0 0 = -32768 ∧
    iframePixel [(-32768 : Int)] 0 0 0 ≠ - wordsReshaped [(-32768 : Int)] (0 + 0 * 128) 0 ∧
    iframePixel [(5 : Int)] 0 0 0 = - wordsReshaped [(5 : Int)] (0 + 0 * 128) 0 := by
  have hw : wordsReshaped [(-32768 : Int)] (0 + 0 * 128) 0 = -32768 := by decide
  obtain ⟨ha, hb⟩ := C10_negation_wraps.1 [(-32768 : Int)] 0 0 0 hw
  exact ⟨hw, ha, hb, C10_negation_wraps.2 [(5 : Int)] 0 0 0 (by decide) (by decide)⟩

/-- An oversized file is truncated to 10^9 bytes by the single bounded
read; the 5*10^8 resulting samples are not a multiple of 12800, so the
decode then fails at the reshape step. -/
theorem decodeFile_oversize (file : List Nat) (h : 1000000000 < file.length) :
    decodeFile file = Except.error DecodeErr.reshapeError := by
  unfold decodeFile file_read
  have hlen : (file.take 1000000000).length = 1000000000 := by
    rw [List.length_take]
    omega
  have hw : (unpackWords (file.take 1000000000)).length = 500000000 := by
    rw [unpackWords_length, hlen]
  simp only [decodeBuffer]
  rw [if_neg (by omega), if_pos (by omega)]

/-- C7 counterexample: a raw file of 1000012800 bytes (a multiple of
25600 exceeding the 10^9 read bound) makes the decode fail with the
reshape error on the truncated prefix, not with a capacity error. -/
theorem C7_counterexample :
    decodeFile (List.replicate 1000012800 0) = Except.error DecodeErr.reshapeError ∧
    decodeFile (List.replicate 1000012800 0) ≠ Except.error DecodeErr.capacityError := by
  have h := decodeFile_oversize (List.replicate 1000012800 0)
    (by simp only [List.length_replicate]; omega)
  refine ⟨h, ?_⟩
  rw [h]
  intro hcontra
  exact DecodeErr.noConfusion (Except.error.inj hcontra)

/-- C7 (amended): the decoder reads each raw file in one operation
returning at most 10^9 bytes; a file exceeding that bound is truncated by
the read and its decode then fails (with the reshape error of the
truncated 5*10^8-sample prefix, there being no dedicated capacity error),
so no truncated frame stream is silently produced. -/
theorem C7_read_bound :
    (∀ file : List Nat, (file_read file).length ≤ 1000000000 ∧
      file_read file = file.take 1000000000) ∧
    (∀ file : List Nat, 1000000000 < file.length →
      decodeFile file = Except.error DecodeErr.reshapeError) := by
  refine ⟨fun file => ⟨?_, rfl⟩, fun file h => decodeFile_oversize file h⟩
  unfold file_read
  rw [List.length_take]
  omega

/-- Witness for C7 at a 10^9 + 2 byte zero file. -/
theorem C7_read_bound_witness :
    1000000000 < (List.replicate 1000000002 (0 : Nat)).length ∧
    decodeFile (List.replicate 1000000002 0) = Except.error DecodeErr.reshapeError ∧
    (file_read (List.replicate 1000000002 0)).length ≤ 1000000000 := by
  have h : 1000000000 < (List.replicate 1000000002 (0 : Nat)).length := by
    simp only [List.length_replicate]
    omega
  exact ⟨h, C7_read_bound.2 _ h, (C7_read_bound.1 _).1⟩

/-- The C2 scenario header: sample_time = 10 msec, page_frames = 5, the
sentinel, one bitmap line and one raw-data file line. -/
def headerC2 : List (List Char) :=
  ["acquisition_date = 2020/01/01 10:00:00".toList,
   "sample_time = 10 msec".toList,
   "page_frames = 5".toList,
   "Data-File-List".toList,
   "m.rsm".toList,
   "d.rsd".toList]

/-- C2 counterexample: the scenario header parses to sample rate 100 Hz
and declared frame count 5, but a raw file of exactly 128000 samples
(256000 bytes) decodes to 128000 / 12800 = 10 frames, not 5. -/
theorem C2_counterexample :
    read_trial_meta headerC2 = Except.ok ("m.rsm".toList, ["d.rsd".toList],
      "2020/01/01 10:00:00".toList, 100, 5) ∧
    Except.map List.length (decodeBuffer (List.replicate 256000 0)) = Except.ok 10 ∧
    Except.map List.length (decodeBuffer (List.replicate 256000 0)) ≠ Except.ok 5 := by
  have hlen : (List.replicate 256000 (0 : Nat)).length = 256000 := by
    simp only [List.length_replicate]
  have hok := decodeBuffer_ok (List.replicate 256000 0) (by omega) (by omega)
  have hmap : Except.map List.length (decodeBuffer (List.replicate 256000 0)) =
      Except.ok 10 := by
    rw [hok]
    show Except.ok (List.length _) = _
    rw [List.length_ofFn, unpackWords_length, hlen]
  refine ⟨by with_unfolding_all rfl, hmap, ?_⟩
  rw [hmap]
  intro hcontra
  exact absurd (Except.ok.inj hcontra) (by decide)

/-- C2 (amended): the scenario header parses with sample rate exactly
100 Hz and declared page_frames 5, and the 256000-byte raw file decodes
to exactly 10 frames (128000 samples / 12800), each 100x100 — the
header-declared 5 being ignored by the per-file recompute. -/
theorem C2_end_to_end :
    read_trial_meta headerC2 = Except.ok ("m.rsm".toList, ["d.rsd".toList],
      "2020/01/01 10:00:00".toList, 100, 5) ∧
    (∀ buf : List Nat, buf.length = 256000 →
      ∃ frames, decodeBuffer buf = Except.ok frames ∧ frames.length = 10 ∧
        ∀ f ∈ frames, f.length = 100 ∧ ∀ row ∈ f, row.length = 100) := by
  refine ⟨by with_unfolding_all rfl, ?_⟩
  intro buf hlen
  have h25600 : buf.length % 25600 = 0 := by omega
  obtain ⟨frames, hok, hcount, hshape, _⟩ := C1_decode buf h25600
  exact ⟨frames, hok, by omega, hshape⟩

/-- Witness for C2 at the 256000-byte zero buffer. -/
theorem C2_end_to_end_witness :
    (List.replicate 256000 (0 : Nat)).length = 256000 ∧
    (∃ frames, decodeBuffer (List.replicate 256000 0) = Except.ok frames ∧
      frames.length = 10 ∧
      ∀ f ∈ frames, f.length = 100 ∧ ∀ row ∈ f, row.length = 100) := by
  have h : (List.replicate 256000 (0 : Nat)).length = 256000 := by
    simp only [List.length_replicate]
  exact ⟨h, C2_end_to_end.2 _ h⟩

/-! ## Header parser lemmas -/

/-- The acquisition_date branch touches no other local. -/
theorem lineDate_inv (st : HeaderState) (l : List Char) :
    (lineDate st l).sample_time = st.sample_time ∧
    (lineDate st l).sample_rate = st.sample_rate ∧
    (lineDate st l).n_frames = st.n_frames ∧
    (lineDate st l).files_raw = st.files_raw ∧
    (lineDate st l).addftolist = st.addftolist := by
  unfold lineDate
  split <;> exact ⟨rfl, rfl, rfl, rfl, rfl⟩

/-- A line without the sample_time marker leaves the state unchanged. -/
theorem lineTime_no_time {st : HeaderState} {l : List Char}
    (h : containsSub timePat l = false) : lineTime st l = Except.ok st := by
  unfold lineTime
  simp [h]

/-- A successful sample_time step touches only the two timing locals. -/
theorem lineTime_ok_inv {st st' : HeaderState} {l : List Char}
    (h : lineTime st l = Except.ok st') :
    st'.acquisition_date = st.acquisition_date ∧
    st'.n_frames = st.n_frames ∧
    st'.files_raw = st.files_raw ∧
    st'.addftolist = st.addftolist := by
  unfold lineTime at h
  split at h
  · split at h
    · exact Except.noConfusion h
    · split at h
      · exact Except.noConfusion h
      · cases h; exact ⟨rfl, rfl, rfl, rfl⟩
  · cases h; exact ⟨rfl, rfl, rfl, rfl⟩

/-- A sample_time line whose value parses to d (with d/1000 nonzero)
binds sample_rate to the reciprocal 1 / (d / 1000). -/
theorem lineTime_rate_ok {st st' : HeaderState} {l : List Char} {d : ℚ}
    (hc : containsSub timePat l = true)
    (hp : parseFloat (timeAux l) = some d) (hd : ¬ d / 1000 = 0)
    (h : lineTime st l = Except.ok st') :
    st'.sample_rate = some (1 / (d / 1000)) := by
  unfold lineTime at h
  rw [hc, hp] at h
  simp only [if_true] at h
  rw [if_neg hd] at h
  cases h
  rfl

/-- A sample_time line whose value does not parse raises the float
ValueError. -/
theorem lineTime_err {st : HeaderState} {l : List Char}
    (hc : containsSub timePat l = true)
    (hp : parseFloat (timeAux l) = none) :
    lineTime st l = Except.error HeaderErr.valueErrorFloat := by
  unfold lineTime
  rw [hc, hp]
  simp

/-- A successful page_frames step touches only n_frames. -/
theorem lineFrames_ok_inv {st st' : HeaderState} {l : List Char}
    (h : lineFrames st l = Except.ok st') :
    st'.acquisition_date = st.acquisition_date ∧
    st'.sample_time = st.sample_time ∧
    st'.sample_rate = st.sample_rate ∧
    st'.files_raw = st.files_raw ∧
    st'.addftolist = st.addftolist := by
  unfold lineFrames at h
  split at h
  · split at h
    · exact Except.noConfusion h
    · cases h; exact ⟨rfl, rfl, rfl, rfl, rfl⟩
  · cases h; exact ⟨rfl, rfl, rfl, rfl, rfl⟩

/-- The file-list append step never touches sample_rate. -/
theorem lineFiles_rate (st : HeaderState) (l : List Char) :
    (lineFiles st l).sample_rate = st.sample_rate := by
  unfold lineFiles
  split <;> rfl

/-- With addftolist still false, the append step is the identity. -/
theorem lineFiles_no_add {st : HeaderState} {l : List Char}
    (h : st.addftolist = false) : lineFiles st l = st := by
  unfold lineFiles
  rw [h]
  simp

/-- The sentinel step never touches sample_rate. -/
theorem lineSentinel_rate (st : HeaderState) (l : List Char) :
    (lineSentinel st l).sample_rate = st.sample_rate := by
  unfold lineSentinel
  split <;> rfl

/-- On a line without the sentinel, the sentinel step is the identity. -/
theorem lineSentinel_no_sent {st : HeaderState} {l : List Char}
    (h : containsSub sentinelPat l = false) : lineSentinel st l = st := by
  unfold lineSentinel
  simp [h]

/-- A scan step on a sentinel-free line with addftolist still false keeps
addftolist false and the file list untouched. -/
theorem processLine_ok_no_sentinel {st st' : HeaderState} {l : List Char}
    (hs : containsSub sentinelPat l = false) (ha : st.addftolist = false)
    (h : processLine st l = Except.ok st') :
    st'.addftolist = false ∧ st'.files_raw = st.files_raw := by
  unfold processLine at h
  cases ht : lineTime (lineDate st l) l with
  | error e => simp only [ht] at h; exact Except.noConfusion h
  | ok st2 =>
    simp only [ht] at h
    cases hf : lineFrames st2 l with
    | error e => simp only [hf] at h; exact Except.noConfusion h
    | ok st3 =>
      simp only [hf, Except.ok.injEq] at h
      subst h
      have h3a : st3.addftolist = false := by
        rw [(lineFrames_ok_inv hf).2.2.2.2, (lineTime_ok_inv ht).2.2.2,
          (lineDate_inv st l).2.2.2.2, ha]
      rw [lineSentinel_no_sent hs, lineFiles_no_add h3a]
      refine ⟨h3a, ?_⟩
      rw [(lineFrames_ok_inv hf).2.2.2.1, (lineTime_ok_inv ht).2.2.1,
        (lineDate_inv st l).2.2.2.1]

/-- A scan step on a line without the sample_time marker preserves
sample_rate. -/
theorem processLine_rate_no_time {st st' : HeaderState} {l : List Char}
    (hc : containsSub timePat l = false)
    (h : processLine st l = Except.ok st') : st'.sample_rate = st.sample_rate := by
  unfold processLine at h
  simp only [lineTime_no_time hc] at h
  cases hf : lineFrames (lineDate st l) l with
  | error e => simp only [hf] at h; exact Except.noConfusion h
  | ok st3 =>
    simp only [hf, Except.ok.injEq] at h
    subst h
    rw [lineSentinel_rate, lineFiles_rate, (lineFrames_ok_inv hf).2.2.1,
      (lineDate_inv st l).2.1]

/-- A successful scan step on a sample_time line whose value parses to d
binds sample_rate to 1 / (d / 1000). -/
theorem processLine_rate_set {st st' : HeaderState} {l : List Char} {d : ℚ}
    (hc : containsSub timePat l = true)
    (hp : parseFloat (timeAux l) = some d) (hd : ¬ d / 1000 = 0)
    (h : processLine st l = Except.ok st') :
    st'.sample_rate = some (1 / (d / 1000)) := by
  unfold processLine at h
  cases ht : lineTime (lineDate st l) l with
  | error e => simp only [ht] at h; exact Except.noConfusion h
  | ok st2 =>
    simp only [ht] at h
    cases hf : lineFrames st2 l with
    | error e => simp only [hf] at h; exact Except.noConfusion h
    | ok st3 =>
      simp only [hf, Except.ok.injEq] at h
      subst h
      rw [lineSentinel_rate, lineFiles_rate, (lineFrames_ok_inv hf).2.2.1,
        lineTime_rate_ok hc hp hd ht]

/-- A scan step on a sample_time line whose value does not parse fails
with the float ValueError (the first fallible operation of the step). -/
theorem processLine_err_float {st : HeaderState} {l : List Char}
    (hc : containsSub timePat l = true)
    (hp : parseFloat (timeAux l) = none) :
    processLine st l = Except.error HeaderErr.valueErrorFloat := by
  unfold processLine
  rw [lineTime_err hc hp]

/-- The scan splits over list append like Except bind. -/
theorem processLinesFrom_append (st : HeaderState) (xs ys : List (List Char)) :
    processLinesFrom st (xs ++ ys) =
      match processLinesFrom st xs with
      | Except.error e => Except.error e
      | Except.ok st2 => processLinesFrom st2 ys := by
  induction xs generalizing st with
  | nil => rfl
  | cons l ls ih =>
    simp only [List.cons_append, processLinesFrom]
    cases processLine st l with
    | error e => rfl
    | ok st2 => exact ih st2

/-- Scanning sentinel-free lines from a state with addftolist false never
adds a file. -/
theorem processLinesFrom_no_sentinel {lines : List (List Char)} :
    ∀ {st st' : HeaderState}, (∀ l ∈ lines, containsSub sentinelPat l = false) →
    st.addftolist = false → processLinesFrom st lines = Except.ok st' →
    st'.addftolist = false ∧ st'.files_raw = st.files_raw := by
  induction lines with
  | nil =>
    intro st st' _ ha h
    cases h
    exact ⟨ha, rfl⟩
  | cons l ls ih =>
    intro st st' hsent ha h
    unfold processLinesFrom at h
    cases hp : processLine st l with
    | error e => simp only [hp] at h; exact Except.noConfusion h
    | ok st2 =>
      simp only [hp] at h
      have h1 := processLine_ok_no_sentinel (hsent l (by simp)) ha hp
      have h2 := ih (fun x hx => hsent x (by simp [hx])) h1.1 h
      exact ⟨h2.1, h2.2.trans h1.2⟩

/-- Scanning lines without the sample_time marker preserves sample_rate. -/
theorem processLinesFrom_rate_pres {lines : List (List Char)} :
    ∀ {st st' : HeaderState}, (∀ l ∈ lines, containsSub timePat l = false) →
    processLinesFrom st lines = Except.ok st' →
    st'.sample_rate = st.sample_rate := by
  induction lines with
  | nil =>
    intro st st' _ h
    cases h
    rfl
  | cons l ls ih =>
    intro st st' htime h
    unfold processLinesFrom at h
    cases hp : processLine st l with
    | error e => simp only [hp] at h; exact Except.noConfusion h
    | ok st2 =>
      simp only [hp] at h
      have h1 := processLine_rate_no_time (htime l (by simp)) hp
      exact (ih (fun x hx => htime x (by simp [hx])) h).trans h1

/-- A scan failure propagates out of read_trial_meta unchanged. -/
theorem read_trial_meta_err {lines : List (List Char)} {e : HeaderErr}
    (h : processLines lines = Except.error e) :
    read_trial_meta lines = Except.error e := by
  unfold read_trial_meta
  simp only [h]

/-- A successful read_trial_meta exposes the final scan state: a nonempty
file list and all three fields bound to the returned values. -/
theorem read_trial_meta_ok_inv {lines : List (List Char)} {rsm : List Char}
    {files : List (List Char)} {date : List Char} {rate : ℚ} {nf : Int}
    (h : read_trial_meta lines = Except.ok (rsm, files, date, rate, nf)) :
    ∃ st, processLines lines = Except.ok st ∧ st.files_raw = rsm :: files ∧
      st.acquisition_date = some date ∧ st.sample_rate = some rate ∧
      st.n_frames = some nf := by
  unfold read_trial_meta at h
  cases hp : processLines lines with
  | error e => simp only [hp] at h; exact Except.noConfusion h
  | ok st =>
    simp only [hp] at h
    refine ⟨st, rfl, ?_⟩
    cases hf : st.files_raw with
    | nil => simp only [hf] at h; exact Except.noConfusion h
    | cons a rest =>
      simp only [hf] at h
      cases hda : st.acquisition_date with
      | none => simp only [hda] at h; exact Except.noConfusion h
      | some d0 =>
        cases hra : st.sample_rate with
        | none => simp only [hda, hra] at h; exact Except.noConfusion h
        | some r0 =>
          cases hnf : st.n_frames with
          | none => simp only [hda, hra, hnf] at h; exact Except.noConfusion h
          | some n0 =>
            simp only [hda, hra, hnf, Except.ok.injEq, Prod.mk.injEq] at h
            obtain ⟨h1, h2, h3, h4, h5⟩ := h
            rw [h1, h2, h3, h4, h5]
            exact ⟨rfl, rfl, rfl, rfl⟩

/-- With an ok scan whose file list stayed empty, read_trial_meta fails
with the IndexError of files_raw[0]. -/
theorem read_of_empty {lines : List (List Char)} {st : HeaderState}
    (h : processLines lines = Except.ok st) (hf : st.files_raw = []) :
    read_trial_meta lines = Except.error HeaderErr.indexError := by
  unfold read_trial_meta
  simp only [h, hf]

/-- With an ok scan missing a required field, read_trial_meta fails with
a FormatError-class error. -/
theorem read_of_missing {lines : List (List Char)} {st : HeaderState}
    (h : processLines lines = Except.ok st)
    (hm : st.acquisition_date = none ∨ st.sample_rate = none ∨ st.n_frames = none) :
    ∃ e, read_trial_meta lines = Except.error e ∧ isFormatError e = true := by
  unfold read_trial_meta
  simp only [h]
  cases hf : st.files_raw with
  | nil => simp only [hf]; exact ⟨HeaderErr.indexError, rfl, rfl⟩
  | cons a rest =>
    simp only [hf]
    cases hda : st.acquisition_date with
    | none => simp only [hda]; exact ⟨HeaderErr.nameError, rfl, rfl⟩
    | some d0 =>
      cases hra : st.sample_rate with
      | none => simp only [hra]; exact ⟨HeaderErr.nameError, rfl, rfl⟩
      | some r0 =>
        cases hnf : st.n_frames with
        | none => simp only [hnf]; exact ⟨HeaderErr.nameError, rfl, rfl⟩
        | some n0 =>
          rcases hm with hm | hm | hm
          · rw [hm] at hda; exact Option.noConfusion hda
          · rw [hm] at hra; exact Option.noConfusion hra
          · rw [hm] at hnf; exact Option.noConfusion hnf

/-- C5: on a valid header whose (last) sample_time field parses to a
positive millisecond count d, read_trial_meta returns the sample rate
1 / (d / 1000) Hz, and that rate times the duration in seconds is
exactly 1. -/
theorem C5_rate_reciprocal (pre post : List (List Char)) (line : List Char) (d : ℚ)
    (rsm : List Char) (files : List (List Char)) (date : List Char) (rate : ℚ) (nf : Int)
    (hc : containsSub timePat line = true)
    (hp : parseFloat (timeAux line) = some d)
    (hd : 0 < d)
    (hpost : ∀ l ∈ post, containsSub timePat l = false)
    (h : read_trial_meta (pre ++ line :: post) = Except.ok (rsm, files, date, rate, nf)) :
    rate = 1 / (d / 1000) ∧ rate * (d / 1000) = 1 := by
  have hd0 : ¬ d / 1000 = 0 := by positivity
  obtain ⟨st, hpl, -, -, hrate, -⟩ := read_trial_meta_ok_inv h
  rw [processLines, processLinesFrom_append] at hpl
  cases hpre : processLinesFrom initState pre with
  | error e => simp only [hpre] at hpl; exact Except.noConfusion hpl
  | ok st1 =>
    simp only [hpre] at hpl
    unfold processLinesFrom at hpl
    cases hln : processLine st1 line with
    | error e => simp only [hln] at hpl; exact Except.noConfusion hpl
    | ok st2 =>
      simp only [hln] at hpl
      have h2 : st2.sample_rate = some (1 / (d / 1000)) :=
        processLine_rate_set hc hp hd0 hln
      have h3 : st.sample_rate = st2.sample_rate :=
        processLinesFrom_rate_pres hpost hpl
      have h4 : some rate = some (1 / (d / 1000)) := by rw [← hrate, h3, h2]
      have hr := Option.some.inj h4
      refine ⟨hr, ?_⟩
      rw [hr, one_div, inv_mul_cancel₀ hd0]

/-- Witness for C5 at the concrete scenario header: sample_time 10 msec
gives rate 100 Hz and 100 * (10/1000) = 1. -/
theorem C5_rate_reciprocal_witness :
    (100 : ℚ) = 1 / ((10 : ℚ) / 1000) ∧ (100 : ℚ) * ((10 : ℚ) / 1000) = 1 :=
  C5_rate_reciprocal ["acquisition_date = 2020/01/01 10:00:00".toList]
    ["page_frames = 5".toList, "Data-File-List".toList, "m.rsm".toList, "d.rsd".toList]
    "sample_time = 10 msec".toList 10 "m.rsm".toList ["d.rsd".toList]
    "2020/01/01 10:00:00".toList 100 5
    (by decide) (by decide) (by norm_num) (by decide)
    (by with_unfolding_all rfl)

/-- C6: read_trial_meta's failures behave as specified — with a scan that
reaches the end, a missing sentinel leaves the file list empty and gives
the FormatError-class IndexError; a missing required field gives a
FormatError-class error; an unparseable sample_time value gives the
ParseError-class float ValueError. -/
theorem C6_header_failures :
    (∀ lines : List (List Char),
      (∃ st, processLines lines = Except.ok st) →
      (∀ l ∈ lines, containsSub sentinelPat l = false) →
      read_trial_meta lines = Except.error HeaderErr.indexError ∧
        isFormatError HeaderErr.indexError = true) ∧
    (∀ lines : List (List Char),
      (∃ st, processLines lines = Except.ok st ∧
        (st.acquisition_date = none ∨ st.sample_rate = none ∨ st.n_frames = none)) →
      ∃ e, read_trial_meta lines = Except.error e ∧ isFormatError e = true) ∧
    (∀ (pre post : List (List Char)) (line : List Char),
      (∃ st, processLinesFrom initState pre = Except.ok st) →
      containsSub timePat line = true →
      parseFloat (timeAux line) = none →
      read_trial_meta (pre ++ line :: post) = Except.error HeaderErr.valueErrorFloat ∧
        isParseError HeaderErr.valueErrorFloat = true) := by
  refine ⟨?_, ?_, ?_⟩
  · rintro lines ⟨st, hok⟩ hsent
    have hinv := processLinesFrom_no_sentinel hsent rfl hok
    exact ⟨read_of_empty hok hinv.2, rfl⟩
  · rintro lines ⟨st, hok, hm⟩
    exact read_of_missing hok hm
  · rintro pre post line ⟨st1, hpre⟩ hc hp
    refine ⟨?_, rfl⟩
    apply read_trial_meta_err
    rw [processLines, processLinesFrom_append]
    simp only [hpre]
    unfold processLinesFrom
    simp only [processLine_err_float hc hp]

/-- Witness for C6 at three concrete headers: no sentinel, a sentinel but
no fields, and an unparseable sample_time value. -/
theorem C6_header_failures_witness :
    (read_trial_meta ["acquisition_date = x".toList, "page_frames = 5".toList] =
      Except.error HeaderErr.indexError ∧
      isFormatError HeaderErr.indexError = true) ∧
    (∃ e, read_trial_meta ["Data-File-List".toList, "a.rsm".toList] = Except.error e ∧
      isFormatError e = true) ∧
    (read_trial_meta (([] : List (List Char)) ++ "sample_time = abc msec".toList :: []) =
      Except.error HeaderErr.valueErrorFloat ∧
      isParseError HeaderErr.valueErrorFloat = true) := by
  refine ⟨?_, ?_, ?_⟩
  · exact C6_header_failures.1 _ ⟨_, by with_unfolding_all rfl⟩ (by decide)
  · exact C6_header_failures.2.1 _ ⟨_, by with_unfolding_all rfl, Or.inl (by with_unfolding_all rfl)⟩
  · exact C6_header_failures.2.2 [] [] _ ⟨initState, rfl⟩ (by decide) (by decide)

/-! ## Orchestrator theorems -/

/-- C8: the negative-start consistency check is dead code. Line 199
computes relative_start_time as float(timedelta.seconds), the seconds
component of the normalized timedelta, which is always in [0, 86400):
for a trial whose acquisition date lies one hour before the session
start, the true offset is -3600 s, yet the computed value is 82800, the
assert of line 208 passes, and the trial's acquisition and interval are
written with the wrapped start time instead of raising the
ConsistencyError the specification requires. -/
theorem C8_negative_start_bug :
    (32400 - 36000 : Int) < 0 ∧
    timedelta_seconds (32400 - 36000) = 82800 ∧
    processTrial true
      { session_start_time := 36000, devices := [], acquisitions := [], trials := none }
      { acquisition_time := 32400, sample_rate := 100, n_frames := 5 }
      { acquisition_time := 32400, sample_rate := 100, n_frames := 5 } =
    Except.ok
      { session_start_time := 36000, devices := [],
        acquisitions := [{ starting_time := 82800, rate_donor := 100, rate_acceptor := 100 }],
        trials := some [(82800, 82800 + 5 / 100)] } := by
  refine ⟨by decide, by decide, by with_unfolding_all rfl⟩

/-- C9: when the session start derived from the first session-level
header differs from the nwbfile's already-set session start time,
run_conversion prints the mismatch warning and returns before any write:
the nwbfile comes back exactly as given (no device, no acquisition, no
trial added) and the warning flag is set. -/
theorem C9_timestamp_mismatch_aborts (nwb : NWBState) (headerSessionStart : Int)
    (deviceName : List Char) (trialsMeta : List (TrialHeaderMeta × TrialHeaderMeta))
    (h : headerSessionStart ≠ nwb.session_start_time) :
    run_conversion nwb headerSessionStart deviceName trialsMeta = Except.ok (nwb, true) := by
  unfold run_conversion
  rw [if_pos h]

/-- Witness for C9 at a concrete mismatching pair of start times. -/
theorem C9_timestamp_mismatch_aborts_witness :
    run_conversion
      { session_start_time := 0, devices := [], acquisitions := [], trials := none }
      1 "dev".toList [] =
    Except.ok ({ session_start_time := 0, devices := [], acquisitions := [], trials := none }, true) :=
  C9_timestamp_mismatch_aborts _ 1 _ [] (by decide)
